import Mathlib

/-!
Shallow embedding of the moving-average crossover signal engine of the
trading-advisor repository, together with proofs checking the spec's claims.

Source files embedded:
- `backend/src/indicators/simple_indicators.py` (`SimpleIndicators.add_moving_averages`)
- `backend/src/signals/simple_signals.py` (`SimpleSignalGenerator`)
- `backend/api/api.py` (the trend-classification block of `analyze_stock`)

Conventions of the embedding:
- prices are rationals (the source uses double-precision floats; every claim
  here is about exact comparisons and exact arithmetic identities);
- a pandas `NaN` entry in a moving-average column is `Option.none`;
- a pandas `DatetimeIndex` entry is an `Int` counting days, so that the
  source's `(d1.date() - d2.date()).days` is plain integer subtraction;
- `datetime.now().date()`, read by `analyze_signal_performance` and
  `get_current_recommendation` from the wall clock, is modelled as an
  explicit `today : Int` argument holding the ambient date those calls read.
-/

namespace TradingAdvisor

/-- One row of the price DataFrame, restricted to the fields the engine
reads: the index entry (a date) and the `Close` column. -/
structure Bar where
  date : Int
  close : ℚ
deriving DecidableEq

/-- `series.rolling(window=w).mean()` from
`SimpleIndicators.add_moving_averages`: entry `i` is the mean of the `w`
values ending at `i`, and is `NaN` (here `none`) while fewer than `w`
values are available (pandas' default `min_periods = window`). -/
def rollingMean (w : ℕ) (closes : List ℚ) : List (Option ℚ) :=
  (List.range closes.length).map (fun i =>
    let win := (closes.take (i + 1)).drop (i + 1 - w)
    if win.length = w then some (win.sum / (w : ℚ)) else none)

/-- One row of the indicator-augmented DataFrame: `Close` plus the two
moving-average columns added by `add_moving_averages` (named `SMA_20` and
`SMA_50` in the source for the default windows 20 and 50). -/
structure IndicatorRow where
  date : Int
  close : ℚ
  sma_short : Option ℚ
  sma_long : Option ℚ
deriving DecidableEq

/-- `SimpleIndicators.add_moving_averages(data, short_window, long_window)`:
returns `None` when the input frame is empty, otherwise a copy of the frame
with the two rolling-mean columns appended. -/
def add_moving_averages (data : List Bar) (short_window long_window : ℕ) :
    Option (List IndicatorRow) :=
  if data.isEmpty then none
  else
    some ((List.range data.length).map (fun i =>
      { date := (data.map Bar.date).getD i 0
        close := (data.map Bar.close).getD i 0
        sma_short := (rollingMean short_window (data.map Bar.close)).getD i none
        sma_long := (rollingMean long_window (data.map Bar.close)).getD i none }))

/-- Trend labels returned by the trend block of `analyze_stock` in
`backend/api/api.py` (the source returns these very strings). -/
inductive TrendLabel where
  | INSUFFICIENT_DATA
  | STRONG_BULLISH
  | MIXED_BULLISH
  | STRONG_BEARISH
  | MIXED_BEARISH
deriving DecidableEq

/-- The trend classification of `analyze_stock` (api.py): given the latest
bar's close `p` and the two moving averages there (`none` = NaN), produce
the trend label and strength, first match wins. -/
def classifyTrend (p : ℚ) (f s : Option ℚ) : TrendLabel × ℚ :=
  match f, s with
  | some sma_20, some sma_50 =>
    if p > sma_20 ∧ sma_20 > sma_50 then
      (.STRONG_BULLISH, (sma_20 - sma_50) / sma_50 * 100)
    else if p > sma_20 ∧ sma_20 < sma_50 then
      (.MIXED_BULLISH, (sma_50 - sma_20) / sma_50 * 100)
    else if p < sma_20 ∧ sma_20 < sma_50 then
      (.STRONG_BEARISH, (sma_50 - sma_20) / sma_50 * 100)
    else
      (.MIXED_BEARISH, (sma_20 - sma_50) / sma_50 * 100)
  | _, _ => (.INSUFFICIENT_DATA, 0)

/-- The trend part of `analyze_stock`: take `iloc[-1]` of the indicator
frame and classify it.  `none` models the exception `iloc[-1]` raises on an
empty frame (that path is unreachable because `add_moving_averages` already
returns `None` for empty input). -/
def analyzeStockTrend (frame : List IndicatorRow) : Option (TrendLabel × ℚ) :=
  match frame.getLast? with
  | none => none
  | some latest => some (classifyTrend latest.close latest.sma_short latest.sma_long)

/-- The configuration of `SimpleSignalGenerator.__init__` (defaults
`stop_loss_pct = 0.05`, `take_profit_pct = 0.10`). -/
structure SimpleSignalGenerator where
  stop_loss_pct : ℚ
  take_profit_pct : ℚ
deriving DecidableEq

/-- A signal dictionary as built by `_create_buy_signal` /
`_create_sell_signal`; the `type` field is the free-form string the source
stores under the `'type'` key. -/
structure Signal where
  date : Int
  symbol : String
  type : String
  price : ℚ
  stop_loss : Option ℚ
  take_profit : Option ℚ
  risk_reward_ratio : Option ℚ
  reason : String
deriving DecidableEq

/-- `SimpleSignalGenerator._create_buy_signal`. -/
def create_buy_signal (g : SimpleSignalGenerator) (date : Int) (price : ℚ)
    (symbol : String) : Signal :=
  { date := date
    symbol := symbol
    type := "BUY"
    price := price
    stop_loss := some (price * (1 - g.stop_loss_pct))
    take_profit := some (price * (1 + g.take_profit_pct))
    risk_reward_ratio := some (g.take_profit_pct / g.stop_loss_pct)
    reason := "SMA 20 crossed above SMA 50" }

/-- `SimpleSignalGenerator._create_sell_signal`. -/
def create_sell_signal (date : Int) (price : ℚ) (symbol : String) : Signal :=
  { date := date
    symbol := symbol
    type := "SELL"
    price := price
    stop_loss := none
    take_profit := none
    risk_reward_ratio := none
    reason := "SMA 20 crossed below SMA 50" }

/-- One iteration of the loop in `find_crossover_signals`, for the pair of
rows at indices `i-1` (yesterday) and `i` (today): skip when any of the four
moving-average values is NaN, else emit a BUY on an upward cross, else a
SELL on a downward cross, else nothing. -/
def crossoverSignalAt (g : SimpleSignalGenerator) (symbol : String)
    (prev cur : IndicatorRow) : Option Signal :=
  match prev.sma_short, prev.sma_long, cur.sma_short, cur.sma_long with
  | some sma_20_yesterday, some sma_50_yesterday, some sma_20_today, some sma_50_today =>
    if sma_20_yesterday ≤ sma_50_yesterday ∧ sma_20_today > sma_50_today then
      some (create_buy_signal g cur.date cur.close symbol)
    else if sma_20_yesterday ≥ sma_50_yesterday ∧ sma_20_today < sma_50_today then
      some (create_sell_signal cur.date cur.close symbol)
    else none
  | _, _, _, _ => none

/-- The loop `for i in range(1, len(data))` of `find_crossover_signals`,
collecting the emitted signals in order; the first argument is the row at
index `i-1`. -/
def crossoverScan (g : SimpleSignalGenerator) (symbol : String) :
    IndicatorRow → List IndicatorRow → List Signal
  | _, [] => []
  | prev, cur :: rest =>
      (crossoverSignalAt g symbol prev cur).toList ++ crossoverScan g symbol cur rest

/-- `SimpleSignalGenerator.find_crossover_signals(data_with_indicators,
symbol)`: returns `[]` when the frame is `None` or has fewer than 51 rows,
otherwise scans consecutive row pairs.  (The source's check that the
`SMA_20`/`SMA_50` columns exist is always satisfied here, since
`IndicatorRow` carries both columns structurally.) -/
def find_crossover_signals (g : SimpleSignalGenerator)
    (data_with_indicators : Option (List IndicatorRow)) (symbol : String) :
    List Signal :=
  match data_with_indicators with
  | none => []
  | some rows =>
    if rows.length < 51 then []
    else
      match rows with
      | [] => []
      | r :: rest => crossoverScan g symbol r rest

/-- `SimpleSignalGenerator.get_latest_signal`: `None` on an empty list,
else the last element. -/
def get_latest_signal (signals : List Signal) : Option Signal :=
  signals.getLast?

/-- Status strings of `analyze_signal_performance` (sans emoji). -/
inductive Status where
  | TARGET_HIT
  | STOPPED_OUT
  | ACTIVE
deriving DecidableEq

/-- Outcome strings of `analyze_signal_performance`. -/
inductive Outcome where
  | WIN
  | LOSS
  | PENDING
deriving DecidableEq

/-- Failure modes of `analyze_signal_performance`: the explicit
`{'error': ...}` dictionary returned for non-BUY signals, and the
`TypeError` Python would raise if a BUY signal lacked its risk fields
(comparing a float against `None`). -/
inductive PerfError where
  | UnsupportedSignalKind
  | MissingRiskFields
deriving DecidableEq

/-- The dictionary returned by `analyze_signal_performance`. -/
structure PerformanceReport where
  status : Status
  outcome : Outcome
  entry_price : ℚ
  current_price : ℚ
  current_return_pct : ℚ
  stop_loss : ℚ
  take_profit : ℚ
  days_holding : Int
  risk_reward_ratio : Option ℚ
deriving DecidableEq

/-- `SimpleSignalGenerator.analyze_signal_performance(signal,
current_price)`.  `today` is the value of `datetime.now().date()` the
source reads from the wall clock. -/
def analyze_signal_performance (signal : Signal) (current_price : ℚ)
    (today : Int) : Except PerfError PerformanceReport :=
  if signal.type ≠ "BUY" then .error .UnsupportedSignalKind
  else
    match signal.take_profit, signal.stop_loss with
    | some take_profit, some stop_loss =>
      let entry_price := signal.price
      let current_return_pct := (current_price - entry_price) / entry_price * 100
      let so : Status × Outcome :=
        if current_price ≥ take_profit then (.TARGET_HIT, .WIN)
        else if current_price ≤ stop_loss then (.STOPPED_OUT, .LOSS)
        else (.ACTIVE, .PENDING)
      .ok { status := so.1
            outcome := so.2
            entry_price := entry_price
            current_price := current_price
            current_return_pct := current_return_pct
            stop_loss := stop_loss
            take_profit := take_profit
            days_holding := today - signal.date
            risk_reward_ratio := signal.risk_reward_ratio }
    | _, _ => .error .MissingRiskFields

/-- The advisory strings returned by `get_current_recommendation`, one
constructor per distinct return statement of the source. -/
inductive Recommendation where
  | WATCH_FOR_PULLBACK
  | STAY_AWAY
  | RECENT_BUY_SIGNAL
  | REASSESS_OLD_BUY
  | RECENT_SELL_SIGNAL
  | MONITOR_OLD_SELL
  | UNCLEAR
deriving DecidableEq

/-- The `current_ma_status` dictionary built by the caller (`main.py`):
both keys are always present, holding the latest `SMA_20`/`SMA_50` values,
which may be NaN (`none`). -/
structure MAStatus where
  sma_20 : Option ℚ
  sma_50 : Option ℚ
deriving DecidableEq

/-- Python float `>` under the NaN-as-`none` convention: any comparison
against NaN is `False`. -/
def pyGT : Option ℚ → Option ℚ → Bool
  | some a, some b => decide (a > b)
  | _, _ => false

/-- `SimpleSignalGenerator.get_current_recommendation(signals,
current_ma_status)`; `today` is the wall-clock date the source reads via
`datetime.now().date()`. -/
def get_current_recommendation (signals : List Signal)
    (current_ma_status : MAStatus) (today : Int) : Recommendation :=
  match get_latest_signal signals with
  | none =>
    if pyGT current_ma_status.sma_20 current_ma_status.sma_50 then
      .WATCH_FOR_PULLBACK
    else
      .STAY_AWAY
  | some latest_signal =>
    let days_since := today - latest_signal.date
    if latest_signal.type = "BUY" then
      if days_since ≤ 5 then .RECENT_BUY_SIGNAL else .REASSESS_OLD_BUY
    else if latest_signal.type = "SELL" then
      if days_since ≤ 5 then .RECENT_SELL_SIGNAL else .MONITOR_OLD_SELL
    else .UNCLEAR

deriving instance DecidableEq for Except

/-! ### Helper lemmas about the indicator engine -/

theorem length_rollingMean (w : ℕ) (closes : List ℚ) :
    (rollingMean w closes).length = closes.length := by
  simp [rollingMean]

theorem rollingMean_getElem {w : ℕ} {closes : List ℚ} {i : ℕ}
    (h : i < (rollingMean w closes).length) :
    (rollingMean w closes)[i] =
      if w ≤ i + 1 then some (((closes.take (i + 1)).drop (i + 1 - w)).sum / (w : ℚ))
      else none := by
  have hi : i < closes.length := by simpa [length_rollingMean] using h
  have hlen : ((closes.take (i + 1)).drop (i + 1 - w)).length = i + 1 - (i + 1 - w) := by
    simp [List.length_drop, List.length_take]
    omega
  simp only [rollingMean, List.getElem_map, List.getElem_range]
  by_cases hw : w ≤ i + 1
  · rw [if_pos (by omega), if_pos hw]
  · rw [if_neg (by omega), if_neg hw]

theorem rollingMean_isSome {w : ℕ} {closes : List ℚ} {i : ℕ}
    (h : i < (rollingMean w closes).length) :
    ((rollingMean w closes)[i]).isSome ↔ w - 1 ≤ i := by
  rw [rollingMean_getElem h]
  split_ifs with hc <;> simp <;> omega

theorem add_moving_averages_eq {data : List Bar} {sw lw : ℕ} {frame : List IndicatorRow}
    (h : add_moving_averages data sw lw = some frame) :
    frame = (List.range data.length).map (fun i =>
      { date := (data.map Bar.date).getD i 0
        close := (data.map Bar.close).getD i 0
        sma_short := (rollingMean sw (data.map Bar.close)).getD i none
        sma_long := (rollingMean lw (data.map Bar.close)).getD i none }) := by
  unfold add_moving_averages at h
  split at h
  · exact absurd h (by simp)
  · exact (Option.some_injective _ h).symm

theorem add_moving_averages_length {data : List Bar} {sw lw : ℕ}
    {frame : List IndicatorRow} (h : add_moving_averages data sw lw = some frame) :
    frame.length = data.length := by
  rw [add_moving_averages_eq h]
  simp

theorem frame_getElem {data : List Bar} {sw lw : ℕ} {frame : List IndicatorRow}
    (h : add_moving_averages data sw lw = some frame) {i : ℕ} (hi : i < frame.length) :
    frame[i] =
      { date := (data.map Bar.date).getD i 0
        close := (data.map Bar.close).getD i 0
        sma_short := (rollingMean sw (data.map Bar.close)).getD i none
        sma_long := (rollingMean lw (data.map Bar.close)).getD i none } := by
  have hlen : i < data.length := by
    rwa [add_moving_averages_length h] at hi
  rw [List.getElem_of_eq (add_moving_averages_eq h) hi]
  simp [hlen]

theorem frame_sma_short {data : List Bar} {sw lw : ℕ} {frame : List IndicatorRow}
    (h : add_moving_averages data sw lw = some frame) {i : ℕ} (hi : i < frame.length)
    (hr : i < (rollingMean sw (data.map Bar.close)).length) :
    frame[i].sma_short = (rollingMean sw (data.map Bar.close))[i] := by
  rw [frame_getElem h hi]
  exact List.getD_eq_getElem _ _ hr

theorem frame_sma_long {data : List Bar} {sw lw : ℕ} {frame : List IndicatorRow}
    (h : add_moving_averages data sw lw = some frame) {i : ℕ} (hi : i < frame.length)
    (hr : i < (rollingMean lw (data.map Bar.close)).length) :
    frame[i].sma_long = (rollingMean lw (data.map Bar.close))[i] := by
  rw [frame_getElem h hi]
  exact List.getD_eq_getElem _ _ hr

theorem frame_date {data : List Bar} {sw lw : ℕ} {frame : List IndicatorRow}
    (h : add_moving_averages data sw lw = some frame) {i : ℕ} (hi : i < frame.length)
    (hd : i < data.length) :
    frame[i].date = data[i].date := by
  rw [frame_getElem h hi]
  simp [List.getD_eq_getElem (data.map Bar.date) 0 (by simpa using hd),
    List.getElem?_eq_getElem hd]

theorem frame_map_date {data : List Bar} {sw lw : ℕ} {frame : List IndicatorRow}
    (h : add_moving_averages data sw lw = some frame) :
    frame.map IndicatorRow.date = data.map Bar.date := by
  apply List.ext_getElem
  · simp [add_moving_averages_length h]
  · intro n h1 h2
    have hn : n < frame.length := by simpa using h1
    have hd : n < data.length := by
      rw [← add_moving_averages_length h]
      exact hn
    simp only [List.getElem_map]
    rw [frame_date h hn hd]

/-- A defined slow moving average at row `i` of a frame built with long
window `lw > 0` forces `lw - 1 ≤ i`. -/
theorem sma_long_defined {data : List Bar} {sw lw : ℕ}
    {frame : List IndicatorRow} (h : add_moving_averages data sw lw = some frame)
    {i : ℕ} (hi : i < frame.length) {v : ℚ} (hv : frame[i].sma_long = some v) :
    lw - 1 ≤ i := by
  have hlt : i < (rollingMean lw (data.map Bar.close)).length := by
    rw [length_rollingMean, List.length_map, ← add_moving_averages_length h]
    exact hi
  exact (rollingMean_isSome hlt).mp (by rw [← frame_sma_long h hi hlt, hv]; rfl)

/-! ### Helper lemmas about the signal detector -/

theorem crossoverScan_eq_filterMap (g : SimpleSignalGenerator) (sym : String)
    (r : IndicatorRow) (rest : List IndicatorRow) :
    crossoverScan g sym r rest =
      ((r :: rest).zip rest).filterMap (fun p => crossoverSignalAt g sym p.1 p.2) := by
  induction rest generalizing r with
  | nil => rfl
  | cons cur rest ih =>
    simp only [crossoverScan, List.zip_cons_cons, List.filterMap_cons]
    cases h : crossoverSignalAt g sym r cur <;> simp [h, ih]

theorem mem_zip_pairs {α : Type} {r : α} {rest : List α} {p : α × α} :
    p ∈ (r :: rest).zip rest ↔
      ∃ (j : ℕ) (h : j + 1 < (r :: rest).length),
        p = ((r :: rest)[j], (r :: rest)[j+1]) := by
  rw [List.mem_iff_getElem]
  have hlen : ((r :: rest).zip rest).length = rest.length := by
    simp [List.length_zip]
  constructor
  · rintro ⟨n, hn, hp⟩
    have hn' : n < rest.length := by omega
    refine ⟨n, by simp; omega, ?_⟩
    rw [← hp, List.getElem_zip]
    simp
  · rintro ⟨j, hj, rfl⟩
    have hj' : j < rest.length := by simp at hj; omega
    refine ⟨j, by omega, ?_⟩
    rw [List.getElem_zip]
    simp

theorem mem_crossoverScan {g : SimpleSignalGenerator} {sym : String}
    {r : IndicatorRow} {rest : List IndicatorRow} {sg : Signal} :
    sg ∈ crossoverScan g sym r rest ↔
      ∃ (j : ℕ) (h : j + 1 < (r :: rest).length),
        crossoverSignalAt g sym (r :: rest)[j] (r :: rest)[j+1] = some sg := by
  rw [crossoverScan_eq_filterMap, List.mem_filterMap]
  constructor
  · rintro ⟨p, hp, hps⟩
    obtain ⟨j, hj, rfl⟩ := mem_zip_pairs.mp hp
    exact ⟨j, hj, hps⟩
  · rintro ⟨j, hj, hps⟩
    exact ⟨_, mem_zip_pairs.mpr ⟨j, hj, rfl⟩, hps⟩

theorem find_crossover_signals_some (g : SimpleSignalGenerator)
    (rows : List IndicatorRow) (sym : String) :
    find_crossover_signals g (some rows) sym =
      if rows.length < 51 then []
      else
        match rows with
        | [] => []
        | r :: rest => crossoverScan g sym r rest := rfl

theorem find_crossover_signals_short {g : SimpleSignalGenerator}
    {rows : List IndicatorRow} {sym : String} (h : rows.length < 51) :
    find_crossover_signals g (some rows) sym = [] := by
  rw [find_crossover_signals_some, if_pos h]

theorem find_crossover_signals_cons {g : SimpleSignalGenerator}
    {r : IndicatorRow} {rest : List IndicatorRow} {sym : String}
    (h : ¬ (r :: rest).length < 51) :
    find_crossover_signals g (some (r :: rest)) sym = crossoverScan g sym r rest := by
  rw [find_crossover_signals_some, if_neg h]

theorem mem_find_crossover_signals {g : SimpleSignalGenerator}
    {rows : List IndicatorRow} {sym : String} {sg : Signal} :
    sg ∈ find_crossover_signals g (some rows) sym ↔
      (51 ≤ rows.length ∧ ∃ (j : ℕ) (h : j + 1 < rows.length),
        crossoverSignalAt g sym rows[j] rows[j+1] = some sg) := by
  by_cases h51 : rows.length < 51
  · rw [find_crossover_signals_short h51]
    simp
    omega
  · match rows with
    | [] => simp at h51
    | r :: rest =>
      rw [find_crossover_signals_cons h51, mem_crossoverScan]
      constructor
      · rintro ⟨j, hj, hps⟩
        exact ⟨by omega, j, hj, hps⟩
      · rintro ⟨-, j, hj, hps⟩
        exact ⟨j, hj, hps⟩

theorem crossoverSignalAt_eq {g : SimpleSignalGenerator} {sym : String}
    {prev cur : IndicatorRow} {f0 s0 f1 s1 : ℚ}
    (h0 : prev.sma_short = some f0) (h1 : prev.sma_long = some s0)
    (h2 : cur.sma_short = some f1) (h3 : cur.sma_long = some s1) :
    crossoverSignalAt g sym prev cur =
      if f0 ≤ s0 ∧ f1 > s1 then some (create_buy_signal g cur.date cur.close sym)
      else if f0 ≥ s0 ∧ f1 < s1 then some (create_sell_signal cur.date cur.close sym)
      else none := by
  unfold crossoverSignalAt
  rw [h0, h1, h2, h3]

theorem crossoverSignalAt_none {g : SimpleSignalGenerator} {sym : String}
    {prev cur : IndicatorRow}
    (h : prev.sma_short = none ∨ prev.sma_long = none ∨
      cur.sma_short = none ∨ cur.sma_long = none) :
    crossoverSignalAt g sym prev cur = none := by
  unfold crossoverSignalAt
  rcases h with h | h | h | h <;> rw [h] <;>
    cases prev.sma_short <;> cases prev.sma_long <;>
    cases cur.sma_short <;> cases cur.sma_long <;> rfl

theorem crossoverSignalAt_date {g : SimpleSignalGenerator} {sym : String}
    {prev cur : IndicatorRow} {sg : Signal}
    (h : crossoverSignalAt g sym prev cur = some sg) : sg.date = cur.date := by
  unfold crossoverSignalAt at h
  split at h
  · split_ifs at h <;>
      simp only [Option.some_inj] at h <;>
      rw [← h] <;> rfl
  · exact absurd h (by simp)

theorem crossoverSignalAt_type {g : SimpleSignalGenerator} {sym : String}
    {prev cur : IndicatorRow} {sg : Signal}
    (h : crossoverSignalAt g sym prev cur = some sg) :
    sg.type = "BUY" ∨ sg.type = "SELL" := by
  unfold crossoverSignalAt at h
  split at h
  · split_ifs at h <;> simp only [Option.some_inj] at h
    · exact Or.inl (by rw [← h]; rfl)
    · exact Or.inr (by rw [← h]; rfl)
  · exact absurd h (by simp)

theorem map_filterMap_sublist {α β γ : Type} (f : α → Option β) (g : β → γ) (h : α → γ)
    (hfg : ∀ a b, f a = some b → g b = h a) (l : List α) :
    ((l.filterMap f).map g).Sublist (l.map h) := by
  induction l with
  | nil => simp
  | cons a l ih =>
    rw [List.filterMap_cons, List.map_cons]
    cases hfa : f a with
    | none => exact ih.cons (h a)
    | some b =>
      rw [List.map_cons, hfg a b hfa]
      exact ih.cons₂ (h a)

theorem find_crossover_signals_dates_sublist (g : SimpleSignalGenerator)
    (rows : List IndicatorRow) (sym : String) :
    ((find_crossover_signals g (some rows) sym).map Signal.date).Sublist
      (rows.map IndicatorRow.date) := by
  by_cases h51 : rows.length < 51
  · rw [find_crossover_signals_short h51]
    simp
  · match rows with
    | [] => simp at h51
    | r :: rest =>
      rw [find_crossover_signals_cons h51, crossoverScan_eq_filterMap]
      have hsub := map_filterMap_sublist
        (fun p => crossoverSignalAt g sym p.1 p.2) Signal.date
        (fun p => p.2.date)
        (fun p sg hp => crossoverSignalAt_date hp)
        ((r :: rest).zip rest)
      have hmap : ((r :: rest).zip rest).map (fun p => p.2.date) =
          rest.map IndicatorRow.date := by
        have hsnd : ((r :: rest).zip rest).map Prod.snd = rest :=
          List.map_snd_zip _ _ (by simp)
        calc ((r :: rest).zip rest).map (fun p => p.2.date)
            = (((r :: rest).zip rest).map Prod.snd).map IndicatorRow.date := by
              rw [List.map_map]
              rfl
          _ = rest.map IndicatorRow.date := by rw [hsnd]
      rw [hmap] at hsub
      exact hsub.cons _

theorem find_crossover_signals_dates_pairwise {g : SimpleSignalGenerator}
    {rows : List IndicatorRow} {sym : String}
    (h : List.Pairwise (· < ·) (rows.map IndicatorRow.date)) :
    List.Pairwise (· < ·) ((find_crossover_signals g (some rows) sym).map Signal.date) :=
  List.Pairwise.sublist (find_crossover_signals_dates_sublist g rows sym) h

/-! ### Concrete data used by witnesses and counterexamples -/

/-- The default generator configuration
(`stop_loss_pct = 0.05`, `take_profit_pct = 0.10`). -/
def defaultGen : SimpleSignalGenerator :=
  { stop_loss_pct := 5/100, take_profit_pct := 10/100 }

/-- Fifty bars with constant close `10`, dated `0..49`. -/
def constBars50 : List Bar := (List.range 50).map (fun i => ⟨(i : Int), 10⟩)

/-- Fifty-one bars: fifty closes of `10` followed by a close of `40`,
which makes the 20-day average jump above the 50-day average at the last
bar (an upward crossover). -/
def crossBars51 : List Bar :=
  ((List.range 50).map (fun i => ⟨(i : Int), 10⟩)) ++ [⟨50, 40⟩]

/-- The indicator frame of `crossBars51` with the default windows. -/
def crossFrame51 : List IndicatorRow := (add_moving_averages crossBars51 20 50).getD []

/-- The spec's synthetic series `Close = [10,12,14,16,18,20,22,24,26,28]`. -/
def rampBars10 : List Bar :=
  [⟨0, 10⟩, ⟨1, 12⟩, ⟨2, 14⟩, ⟨3, 16⟩, ⟨4, 18⟩,
   ⟨5, 20⟩, ⟨6, 22⟩, ⟨7, 24⟩, ⟨8, 26⟩, ⟨9, 28⟩]

/-- The indicator frame of `rampBars10` with windows 3 and 5. -/
def rampFrame10 : List IndicatorRow := (add_moving_averages rampBars10 3 5).getD []

/-- The indicator frame of `rampBars10` with the default windows 20 and 50
(all moving averages undefined). -/
def rampFrame10Default : List IndicatorRow :=
  (add_moving_averages rampBars10 20 50).getD []

/-- A BUY signal at entry price 100 under the default risk parameters
(`stop_loss = 95`, `take_profit = 110`). -/
def buySignal100 : Signal := create_buy_signal defaultGen 0 100 "AAPL"

/-! ### Claim theorems -/

/-- **C6**: for a latest bar with close `p` and defined averages `f`, `s`,
the trend classification of `analyze_stock` obeys the ordered 4-way
partition (first match wins): `p > f > s` is STRONG_BULLISH with strength
`(f-s)/s*100`; `p > f` and `f < s` is MIXED_BULLISH with strength
`(s-f)/s*100`; `p < f < s` is STRONG_BEARISH with strength `(s-f)/s*100`;
every residual combination is MIXED_BEARISH with strength `(f-s)/s*100`;
an undefined average gives INSUFFICIENT_DATA with strength 0. -/
theorem classifyTrend_spec (p f s : ℚ) (mf ms : Option ℚ) :
    (p > f ∧ f > s →
      classifyTrend p (some f) (some s) = (.STRONG_BULLISH, (f - s) / s * 100)) ∧
    (p > f ∧ f < s →
      classifyTrend p (some f) (some s) = (.MIXED_BULLISH, (s - f) / s * 100)) ∧
    (p < f ∧ f < s →
      classifyTrend p (some f) (some s) = (.STRONG_BEARISH, (s - f) / s * 100)) ∧
    (¬(p > f ∧ f > s) → ¬(p > f ∧ f < s) → ¬(p < f ∧ f < s) →
      classifyTrend p (some f) (some s) = (.MIXED_BEARISH, (f - s) / s * 100)) ∧
    (classifyTrend p none ms = (.INSUFFICIENT_DATA, 0)) ∧
    (classifyTrend p mf none = (.INSUFFICIENT_DATA, 0)) := by
  refine ⟨?_, ?_, ?_, ?_, ?_, ?_⟩
  · rintro ⟨h1, h2⟩
    simp only [classifyTrend]
    rw [if_pos ⟨h1, h2⟩]
  · rintro ⟨h1, h2⟩
    simp only [classifyTrend]
    rw [if_neg (by rintro ⟨-, hc⟩; linarith), if_pos ⟨h1, h2⟩]
  · rintro ⟨h1, h2⟩
    simp only [classifyTrend]
    rw [if_neg (by rintro ⟨hc, -⟩; linarith), if_neg (by rintro ⟨hc, -⟩; linarith),
      if_pos ⟨h1, h2⟩]
  · intro h1 h2 h3
    simp only [classifyTrend]
    rw [if_neg h1, if_neg h2, if_neg h3]
  · cases ms <;> rfl
  · cases mf <;> rfl

unseal Rat.mul Rat.add Rat.sub Rat.inv in
theorem classifyTrend_spec_witness :
    (3 : ℚ) > 2 ∧ (2 : ℚ) > 1 ∧
    classifyTrend 3 (some 2) (some 1) = (.STRONG_BULLISH, ((2 : ℚ) - 1) / 1 * 100) :=
  ⟨by decide, by decide, (classifyTrend_spec 3 2 1 none none).1 ⟨by decide, by decide⟩⟩

/-- **C7**: performance evaluation of a signal whose kind is not BUY (in
particular any SELL signal) fails with the unsupported-signal-kind error
(the source's `{'error': ...}` return) and never yields a report. -/
theorem analyze_signal_performance_non_buy (signal : Signal) (current_price : ℚ)
    (today : Int) (h : signal.type ≠ "BUY") :
    analyze_signal_performance signal current_price today
        = .error .UnsupportedSignalKind ∧
    (analyze_signal_performance signal current_price today).toOption = none := by
  have he : analyze_signal_performance signal current_price today
      = .error .UnsupportedSignalKind := by
    unfold analyze_signal_performance
    rw [if_pos h]
  exact ⟨he, by rw [he]; rfl⟩

theorem analyze_signal_performance_non_buy_witness :
    analyze_signal_performance (create_sell_signal 0 100 "AAPL") 110 3
      = .error .UnsupportedSignalKind :=
  (analyze_signal_performance_non_buy (create_sell_signal 0 100 "AAPL") 110 3
    (by decide)).1

/-- **C8**: with no signals, the recommendation inspects the current
moving-average status: when both values are defined it is
WATCH_FOR_PULLBACK exactly when `sma_20 > sma_50` and STAY_AWAY otherwise;
when either value is undefined (NaN in the source, where any float
comparison with NaN is false) the result is STAY_AWAY, not an error. -/
theorem get_current_recommendation_no_signals (ma : MAStatus) (today : Int) :
    (∀ f s : ℚ, ma.sma_20 = some f → ma.sma_50 = some s →
      get_current_recommendation [] ma today
        = if f > s then .WATCH_FOR_PULLBACK else .STAY_AWAY) ∧
    ((ma.sma_20 = none ∨ ma.sma_50 = none) →
      get_current_recommendation [] ma today = .STAY_AWAY) := by
  constructor
  · intro f s hf hs
    unfold get_current_recommendation get_latest_signal
    simp only [List.getLast?, pyGT, hf, hs]
    by_cases hc : f > s
    · rw [if_pos (by simpa using hc), if_pos hc]
    · rw [if_neg (by simpa using hc), if_neg hc]
  · intro hc
    unfold get_current_recommendation get_latest_signal
    simp only [List.getLast?]
    rcases hc with hc | hc
    · rw [hc]
      rcases ma.sma_50 with - | s <;> rfl
    · rw [hc]
      rcases ma.sma_20 with - | f <;> rfl

unseal Rat.mul Rat.add Rat.sub Rat.inv in
theorem get_current_recommendation_no_signals_witness :
    get_current_recommendation [] ⟨some 3, some 2⟩ 0 = .WATCH_FOR_PULLBACK ∧
    get_current_recommendation [] ⟨none, some 2⟩ 0 = .STAY_AWAY :=
  ⟨by
    rw [(get_current_recommendation_no_signals ⟨some 3, some 2⟩ 0).1 3 2 rfl rfl]
    decide,
   (get_current_recommendation_no_signals ⟨none, some 2⟩ 0).2 (Or.inl rfl)⟩

/-- **C4**: every BUY signal carries
`stop_loss = price * (1 - stopLossPct)`,
`take_profit = price * (1 + takeProfitPct)` and
`risk_reward_ratio = takeProfitPct / stopLossPct`, and (for nonzero price
and stop-loss percentage) the latter equals
`(take_profit/price - 1) / (1 - stop_loss/price)`. -/
theorem create_buy_signal_risk_fields (g : SimpleSignalGenerator) (d : Int)
    (price : ℚ) (sym : String) (hp : price ≠ 0) ( _hs : g.stop_loss_pct ≠ 0) :
    (create_buy_signal g d price sym).stop_loss
        = some (price * (1 - g.stop_loss_pct)) ∧
    (create_buy_signal g d price sym).take_profit
        = some (price * (1 + g.take_profit_pct)) ∧
    (create_buy_signal g d price sym).risk_reward_ratio
        = some (g.take_profit_pct / g.stop_loss_pct) ∧
    g.take_profit_pct / g.stop_loss_pct
        = (price * (1 + g.take_profit_pct) / price - 1)
          / (1 - price * (1 - g.stop_loss_pct) / price) := by
  refine ⟨rfl, rfl, rfl, ?_⟩
  have h1 : price * (1 + g.take_profit_pct) / price = 1 + g.take_profit_pct := by
    rw [mul_comm, mul_div_assoc, div_self hp, mul_one]
  have h2 : price * (1 - g.stop_loss_pct) / price = 1 - g.stop_loss_pct := by
    rw [mul_comm, mul_div_assoc, div_self hp, mul_one]
  rw [h1, h2, add_sub_cancel_left, sub_sub_cancel]

unseal Rat.mul Rat.add Rat.sub Rat.inv in
theorem create_buy_signal_risk_fields_witness :
    (100 : ℚ) ≠ 0 ∧ defaultGen.stop_loss_pct ≠ 0 ∧
    buySignal100.stop_loss = some 95 ∧
    buySignal100.take_profit = some 110 ∧
    buySignal100.risk_reward_ratio = some 2 ∧
    defaultGen.take_profit_pct / defaultGen.stop_loss_pct
      = (100 * (1 + defaultGen.take_profit_pct) / 100 - 1)
        / (1 - 100 * (1 - defaultGen.stop_loss_pct) / 100) :=
  ⟨by decide, by decide, by decide, by decide, by decide,
    (create_buy_signal_risk_fields defaultGen 0 100 "AAPL"
      (by decide) (by decide)).2.2.2⟩

/-- Reduction of `analyze_signal_performance` on a BUY signal whose risk
fields are present. -/
theorem analyze_signal_performance_buy (signal : Signal) (current_price : ℚ)
    (today : Int) (htype : signal.type = "BUY") (tp sl : ℚ)
    (htp : signal.take_profit = some tp) (hsl : signal.stop_loss = some sl) :
    analyze_signal_performance signal current_price today = .ok
      { status := (if current_price ≥ tp then ((Status.TARGET_HIT : Status), (Outcome.WIN : Outcome))
                   else if current_price ≤ sl then (.STOPPED_OUT, .LOSS)
                   else (.ACTIVE, .PENDING)).1
        outcome := (if current_price ≥ tp then ((Status.TARGET_HIT : Status), (Outcome.WIN : Outcome))
                    else if current_price ≤ sl then (.STOPPED_OUT, .LOSS)
                    else (.ACTIVE, .PENDING)).2
        entry_price := signal.price
        current_price := current_price
        current_return_pct := (current_price - signal.price) / signal.price * 100
        stop_loss := sl
        take_profit := tp
        days_holding := today - signal.date
        risk_reward_ratio := signal.risk_reward_ratio } := by
  unfold analyze_signal_performance
  rw [if_neg (by simp [htype]), htp, hsl]

/-- **C3**: for every BUY signal (carrying its risk fields) evaluated
against a current price, `return_pct = (currentPrice - price) / price *
100`, and the status/outcome pair is decided in this order: `currentPrice
>= take_profit` gives (TARGET_HIT, WIN); else `currentPrice <= stop_loss`
gives (STOPPED_OUT, LOSS); else (ACTIVE, PENDING). -/
theorem analyze_signal_performance_spec (signal : Signal) (current_price : ℚ)
    (today : Int) (htype : signal.type = "BUY") (tp sl : ℚ)
    (htp : signal.take_profit = some tp) (hsl : signal.stop_loss = some sl) :
    ∃ r : PerformanceReport,
      analyze_signal_performance signal current_price today = .ok r ∧
      r.current_return_pct = (current_price - signal.price) / signal.price * 100 ∧
      (current_price ≥ tp → r.status = .TARGET_HIT ∧ r.outcome = .WIN) ∧
      (current_price < tp → current_price ≤ sl →
        r.status = .STOPPED_OUT ∧ r.outcome = .LOSS) ∧
      (current_price < tp → sl < current_price →
        r.status = .ACTIVE ∧ r.outcome = .PENDING) := by
  refine ⟨_,
    analyze_signal_performance_buy signal current_price today htype tp sl htp hsl,
    rfl, ?_, ?_, ?_⟩
  · intro hge
    refine ⟨?_, ?_⟩ <;> simp [if_pos hge]
  · intro hlt hle
    have h1 : ¬ current_price ≥ tp := not_le.mpr hlt
    refine ⟨?_, ?_⟩ <;> simp [if_neg h1, if_pos hle]
  · intro hlt hgt
    have h1 : ¬ current_price ≥ tp := not_le.mpr hlt
    have h2 : ¬ current_price ≤ sl := not_le.mpr hgt
    refine ⟨?_, ?_⟩ <;> simp [if_neg h1, if_neg h2]

unseal Rat.mul Rat.add Rat.sub Rat.inv in
theorem analyze_signal_performance_spec_witness :
    buySignal100.type = "BUY" ∧
    (analyze_signal_performance buySignal100 110 3).toOption.map
      (fun r => (r.status, r.outcome)) = some (.TARGET_HIT, .WIN) ∧
    (analyze_signal_performance buySignal100 95 3).toOption.map
      (fun r => (r.status, r.outcome)) = some (.STOPPED_OUT, .LOSS) ∧
    (analyze_signal_performance buySignal100 102 3).toOption.map
      (fun r => (r.status, r.outcome)) = some (.ACTIVE, .PENDING) := by
  refine ⟨rfl, ?_, ?_, ?_⟩
  · obtain ⟨r, hr, -, hs, -, -⟩ :=
      analyze_signal_performance_spec buySignal100 110 3 rfl 110 95 (by decide) (by decide)
    rw [hr]
    obtain ⟨h1, h2⟩ := hs (by decide)
    simp [Except.toOption, h1, h2]
  · obtain ⟨r, hr, -, -, hs, -⟩ :=
      analyze_signal_performance_spec buySignal100 95 3 rfl 110 95 (by decide) (by decide)
    rw [hr]
    obtain ⟨h1, h2⟩ := hs (by decide) (by decide)
    simp [Except.toOption, h1, h2]
  · obtain ⟨r, hr, -, -, -, hs⟩ :=
      analyze_signal_performance_spec buySignal100 102 3 rfl 110 95 (by decide) (by decide)
    rw [hr]
    obtain ⟨h1, h2⟩ := hs (by decide) (by decide)
    simp [Except.toOption, h1, h2]

/-- **C9** (amended): performance evaluation and recommendation are
deterministic functions of their arguments once the ambient date that the
source reads from the wall clock (`datetime.now().date()`) is made an
explicit argument; for a BUY signal, `days_holding` equals the whole-day
difference between that date and the signal date, and evaluation succeeds
even when the difference is negative (no `InvalidInput` failure exists in
the source). -/
theorem analyze_signal_performance_days_holding (signal : Signal)
    (current_price : ℚ) (today : Int) (htype : signal.type = "BUY")
    (tp sl : ℚ) (htp : signal.take_profit = some tp)
    (hsl : signal.stop_loss = some sl) :
    (analyze_signal_performance signal current_price today).toOption.map
      (fun r => r.days_holding) = some (today - signal.date) := by
  unfold analyze_signal_performance
  rw [if_neg (by simp [htype]), htp, hsl]
  rfl

unseal Rat.mul Rat.add Rat.sub Rat.inv in
theorem analyze_signal_performance_days_holding_witness :
    (analyze_signal_performance (create_buy_signal defaultGen 10 100 "AAPL")
        100 5).toOption.map (fun r => r.days_holding) = some (-5) := by
  rw [analyze_signal_performance_days_holding
    (create_buy_signal defaultGen 10 100 "AAPL") 100 5 rfl
    (100 * (1 + defaultGen.take_profit_pct))
    (100 * (1 - defaultGen.stop_loss_pct)) rfl rfl]
  decide

unseal Rat.mul Rat.add Rat.sub Rat.inv in
/-- **C9** (counterexample): the claim asserts that evaluation fails with
`InvalidInput` when the reference date precedes the signal date; the source
instead returns a normal report with a negative `days_holding` (and it
reads that date from the wall clock rather than taking it as an
argument). -/
theorem analyze_signal_performance_negative_days_counterexample :
    (analyze_signal_performance (create_buy_signal defaultGen 10 100 "AAPL")
        100 0).toOption.map (fun r => r.days_holding) = some (-10) := by
  decide

/-- The trailing window of length `w` ending at index `i`, enumerated by
offset: entry `k` of the slice is the close at index `i+1-w+k`. -/
theorem window_slice_eq {closes : List ℚ} {w i : ℕ} (hw : w ≤ i + 1)
    (hi : i < closes.length) :
    (closes.take (i + 1)).drop (i + 1 - w) =
      (List.range w).map (fun k => closes.getD (i + 1 - w + k) 0) := by
  apply List.ext_getElem
  · simp [List.length_drop, List.length_take]
    omega
  · intro n h1 h2
    simp only [List.length_map, List.length_range] at h2
    have hlt : i + 1 - w + n < closes.length := by omega
    rw [List.getElem_drop, List.getElem_take, List.getElem_map, List.getElem_range,
      List.getD_eq_getElem closes 0 hlt]

/-- **C2**: for a non-empty series and valid windows `fastWindow <
slowWindow`, the short average is defined at 0-based index `i` iff
`i ≥ fastWindow - 1`, and when defined it equals the arithmetic mean of the
closes over indices `[i-fastWindow+1, i]`; analogously for the long average
with `slowWindow`. -/
theorem add_moving_averages_spec (data : List Bar) (fastWindow slowWindow : ℕ)
    ( _hfast : 0 < fastWindow) ( _hvalid : fastWindow < slowWindow)
    ( _hne : data ≠ []) (frame : List IndicatorRow)
    (hfr : add_moving_averages data fastWindow slowWindow = some frame) :
    frame.length = data.length ∧
    ∀ (i : ℕ) (hi : i < frame.length),
      (frame[i].sma_short.isSome ↔ fastWindow - 1 ≤ i) ∧
      (frame[i].sma_long.isSome ↔ slowWindow - 1 ≤ i) ∧
      (∀ v : ℚ, frame[i].sma_short = some v →
        v = ((List.range fastWindow).map
          (fun k => (data.map Bar.close).getD (i + 1 - fastWindow + k) 0)).sum
            / (fastWindow : ℚ)) ∧
      (∀ v : ℚ, frame[i].sma_long = some v →
        v = ((List.range slowWindow).map
          (fun k => (data.map Bar.close).getD (i + 1 - slowWindow + k) 0)).sum
            / (slowWindow : ℚ)) := by
  refine ⟨add_moving_averages_length hfr, ?_⟩
  intro i hi
  have hic : i < (data.map Bar.close).length := by
    rw [List.length_map, ← add_moving_averages_length hfr]
    exact hi
  have hshort : i < (rollingMean fastWindow (data.map Bar.close)).length := by
    rwa [length_rollingMean]
  have hlong : i < (rollingMean slowWindow (data.map Bar.close)).length := by
    rwa [length_rollingMean]
  refine ⟨?_, ?_, ?_, ?_⟩
  · rw [frame_sma_short hfr hi hshort]
    exact rollingMean_isSome hshort
  · rw [frame_sma_long hfr hi hlong]
    exact rollingMean_isSome hlong
  · intro v hv
    rw [frame_sma_short hfr hi hshort, rollingMean_getElem hshort] at hv
    split_ifs at hv with hc
    have hvv : _ = v := Option.some_injective _ hv
    rw [← hvv, window_slice_eq hc hic]
  · intro v hv
    rw [frame_sma_long hfr hi hlong, rollingMean_getElem hlong] at hv
    split_ifs at hv with hc
    have hvv : _ = v := Option.some_injective _ hv
    rw [← hvv, window_slice_eq hc hic]

unseal Rat.mul Rat.add Rat.sub Rat.inv in
theorem add_moving_averages_spec_witness :
    rampFrame10.length = rampBars10.length ∧
    (rampFrame10.map IndicatorRow.sma_short).getD 4 none = some 16 :=
  ⟨(add_moving_averages_spec rampBars10 3 5 (by decide) (by decide) (by decide)
      rampFrame10 (by decide)).1, by decide⟩

/-- The label component of `classifyTrend` is INSUFFICIENT_DATA exactly
when one of the two averages is undefined. -/
theorem classifyTrend_fst_insufficient (p : ℚ) (f s : Option ℚ) :
    ((classifyTrend p f s).1 = .INSUFFICIENT_DATA) ↔ (f = none ∨ s = none) := by
  rcases f with - | f
  · simp [classifyTrend]
  · rcases s with - | s
    · simp [classifyTrend]
    · simp only [classifyTrend]
      split_ifs <;> simp

/-- Reduction of the trend block on a frame with a last row. -/
theorem analyzeStockTrend_getLast {frame : List IndicatorRow}
    {last : IndicatorRow} (h : frame.getLast? = some last) :
    analyzeStockTrend frame
      = some (classifyTrend last.close last.sma_short last.sma_long) := by
  unfold analyzeStockTrend
  rw [h]

/-- **C5** (amended): a series of fewer than `slowWindow + 1 = 51` bars
yields an empty signal list, as does a frame whose slow-average column is
entirely undefined, and the detector is a total function (never an
exception); but the trend label is INSUFFICIENT_DATA exactly when the
series has fewer than `slowWindow = 50` bars — at exactly 50 bars the slow
average is already defined at the last bar and a real trend is reported,
so the claim's "fewer than slowWindow + 1" bound is off by one for the
trend part. -/
theorem find_crossover_signals_insufficient (g : SimpleSignalGenerator)
    (data : List Bar) (sym : String) (frame : List IndicatorRow)
    (hfr : add_moving_averages data 20 50 = some frame) :
    (data.length < 51 → find_crossover_signals g (some frame) sym = []) ∧
    ((∀ row ∈ frame, row.sma_long = none) →
      find_crossover_signals g (some frame) sym = []) ∧
    ((analyzeStockTrend frame).map Prod.fst = some .INSUFFICIENT_DATA ↔
      data.length < 50) := by
  have hlen := add_moving_averages_length hfr
  have hpos : 0 < data.length := by
    rcases Nat.eq_zero_or_pos data.length with h0 | h0
    · exfalso
      have : data.isEmpty := by
        rwa [List.isEmpty_iff_length_eq_zero]
      unfold add_moving_averages at hfr
      rw [if_pos this] at hfr
      exact absurd hfr (by simp)
    · exact h0
  refine ⟨?_, ?_, ?_⟩
  · intro h51
    exact find_crossover_signals_short (by omega)
  · intro hall
    rw [List.eq_nil_iff_forall_not_mem]
    intro sg hsg
    obtain ⟨-, j, hj, hat⟩ := mem_find_crossover_signals.mp hsg
    have hj0 : j < frame.length := by omega
    have hrow : frame[j] ∈ frame := List.getElem_mem _
    rw [crossoverSignalAt_none (Or.inr (Or.inl (hall _ hrow)))] at hat
    exact absurd hat (by simp)
  · have hi : frame.length - 1 < frame.length := by omega
    have hlast : frame.getLast? = some (frame[frame.length - 1]) := by
      rw [List.getLast?_eq_getElem?, List.getElem?_eq_getElem hi]
    rw [analyzeStockTrend_getLast hlast]
    have hshort : frame.length - 1 <
        (rollingMean 20 (data.map Bar.close)).length := by
      rw [length_rollingMean, List.length_map]
      omega
    have hlong : frame.length - 1 <
        (rollingMean 50 (data.map Bar.close)).length := by
      rw [length_rollingMean, List.length_map]
      omega
    have hs20 : (frame[frame.length - 1]).sma_short.isSome ↔
        20 - 1 ≤ frame.length - 1 := by
      rw [frame_sma_short hfr hi hshort]
      exact rollingMean_isSome hshort
    have hs50 : (frame[frame.length - 1]).sma_long.isSome ↔
        50 - 1 ≤ frame.length - 1 := by
      rw [frame_sma_long hfr hi hlong]
      exact rollingMean_isSome hlong
    rw [Option.map_some', Option.some_inj, classifyTrend_fst_insufficient,
      ← Option.not_isSome_iff_eq_none, ← Option.not_isSome_iff_eq_none,
      hs20, hs50]
    omega

unseal Rat.mul Rat.add Rat.sub Rat.inv in
theorem find_crossover_signals_insufficient_witness :
    rampBars10.length < 51 ∧
    find_crossover_signals defaultGen (some rampFrame10Default) "AAPL" = [] ∧
    (analyzeStockTrend rampFrame10Default).map Prod.fst
      = some TrendLabel.INSUFFICIENT_DATA :=
  ⟨by decide,
   (find_crossover_signals_insufficient defaultGen rampBars10 "AAPL"
      rampFrame10Default (by decide)).1 (by decide),
   (find_crossover_signals_insufficient defaultGen rampBars10 "AAPL"
      rampFrame10Default (by decide)).2.2.mpr (by decide)⟩

set_option maxRecDepth 10000 in
unseal Rat.mul Rat.add Rat.sub Rat.inv in
/-- **C5** (counterexample): `constBars50` has 50 bars, fewer than
`slowWindow + 1 = 51`, so the claim would require the INSUFFICIENT_DATA
trend label; the signal list is indeed empty, but at 50 bars the 50-day
average is already defined at the last bar and the reported trend is
MIXED_BEARISH. -/
theorem short_series_trend_counterexample :
    constBars50.length < 50 + 1 ∧
    find_crossover_signals defaultGen
      (add_moving_averages constBars50 20 50) "AAPL" = [] ∧
    (analyzeStockTrend ((add_moving_averages constBars50 20 50).getD [])).map
      Prod.fst = some TrendLabel.MIXED_BEARISH := by
  refine ⟨by decide, by decide, by decide⟩

/-- Dates are strictly increasing along the frame, so a bar index is
determined by its date. -/
theorem frame_date_inj {data : List Bar} {sw lw : ℕ} {frame : List IndicatorRow}
    (hfr : add_moving_averages data sw lw = some frame)
    (hd : List.Pairwise (· < ·) (data.map Bar.date))
    {j k : ℕ} (hj : j < frame.length) (hk : k < frame.length)
    (heq : (frame[j]).date = (frame[k]).date) : j = k := by
  have hp : List.Pairwise (· < ·) (frame.map IndicatorRow.date) := by
    rw [frame_map_date hfr]
    exact hd
  rw [List.pairwise_iff_getElem] at hp
  rcases Nat.lt_trichotomy j k with h | h | h
  · exfalso
    have hlt := hp j k (by simpa) (by simpa) h
    simp only [List.getElem_map] at hlt
    rw [heq] at hlt
    exact lt_irrefl _ hlt
  · exact h
  · exfalso
    have hlt := hp k j (by simpa) (by simpa) h
    simp only [List.getElem_map] at hlt
    rw [heq] at hlt
    exact lt_irrefl _ hlt

/-- **C1**: on an indicator-augmented series (whose dates are strictly
increasing, the PriceSeries invariant), for every pair of consecutive bars
`i-1`, `i` where all four moving-average values are defined, a BUY signal
dated at bar `i` is emitted iff `fast[i-1] ≤ slow[i-1]` and `fast[i] >
slow[i]`, and a SELL signal iff `fast[i-1] ≥ slow[i-1]` and `fast[i] <
slow[i]`; when any of the four values is undefined no signal is dated at
bar `i`; and the emitted signal dates are strictly increasing, so the
output is in ascending date order with at most one signal per bar. -/
theorem find_crossover_signals_spec (g : SimpleSignalGenerator) (data : List Bar)
    (sym : String) (frame : List IndicatorRow)
    (hfr : add_moving_averages data 20 50 = some frame)
    (hdates : List.Pairwise (· < ·) (data.map Bar.date)) :
    (∀ (i : ℕ), 0 < i → ∀ (hi : i < frame.length) (f0 s0 f1 s1 : ℚ),
      frame[i-1].sma_short = some f0 →
      frame[i-1].sma_long = some s0 →
      frame[i].sma_short = some f1 →
      frame[i].sma_long = some s1 →
      ((∃ sg ∈ find_crossover_signals g (some frame) sym,
          sg.date = frame[i].date ∧ sg.type = "BUY") ↔ (f0 ≤ s0 ∧ f1 > s1)) ∧
      ((∃ sg ∈ find_crossover_signals g (some frame) sym,
          sg.date = frame[i].date ∧ sg.type = "SELL") ↔ (f0 ≥ s0 ∧ f1 < s1))) ∧
    (∀ (i : ℕ), 0 < i → ∀ (hi : i < frame.length),
      (frame[i-1].sma_short = none ∨
        frame[i-1].sma_long = none ∨
        frame[i].sma_short = none ∨ frame[i].sma_long = none) →
      ∀ sg ∈ find_crossover_signals g (some frame) sym,
        sg.date ≠ frame[i].date) ∧
    List.Pairwise (· < ·)
      ((find_crossover_signals g (some frame) sym).map Signal.date) := by
  refine ⟨?_, ?_, ?_⟩
  · intro i hi0 hi f0 s0 f1 s1 h0 h1 h2 h3
    have h49 : 50 - 1 ≤ i - 1 := sma_long_defined hfr (by omega) h1
    have h51 : 51 ≤ frame.length := by omega
    have hchar := @crossoverSignalAt_eq g sym _ _ f0 s0 f1 s1 h0 h1 h2 h3
    constructor
    · constructor
      · rintro ⟨sg, hmem, hdate, htype⟩
        obtain ⟨-, j, hj, hat⟩ := mem_find_crossover_signals.mp hmem
        have hdj : sg.date = frame[j+1].date := crossoverSignalAt_date hat
        have hji : j + 1 = i :=
          frame_date_inj hfr hdates hj hi (by rw [← hdj, hdate])
        have hj' : j = i - 1 := by omega
        subst hj'
        have hidx : i - 1 + 1 = i := by omega
        simp only [hidx] at hat
        rw [hchar] at hat
        split_ifs at hat with hb hs
        · exact hb
        · exfalso
          have hsg := Option.some_injective _ hat
          subst hsg
          simp [create_sell_signal] at htype
      · intro hcond
        refine ⟨create_buy_signal g (frame[i].date) (frame[i].close) sym, ?_, rfl, rfl⟩
        apply mem_find_crossover_signals.mpr
        refine ⟨h51, i - 1, by omega, ?_⟩
        have hidx : i - 1 + 1 = i := by omega
        simp only [hidx]
        rw [hchar, if_pos hcond]
    · constructor
      · rintro ⟨sg, hmem, hdate, htype⟩
        obtain ⟨-, j, hj, hat⟩ := mem_find_crossover_signals.mp hmem
        have hdj : sg.date = frame[j+1].date := crossoverSignalAt_date hat
        have hji : j + 1 = i :=
          frame_date_inj hfr hdates hj hi (by rw [← hdj, hdate])
        have hj' : j = i - 1 := by omega
        subst hj'
        have hidx : i - 1 + 1 = i := by omega
        simp only [hidx] at hat
        rw [hchar] at hat
        split_ifs at hat with hb hs
        · exfalso
          have hsg := Option.some_injective _ hat
          subst hsg
          simp [create_buy_signal] at htype
        · exact hs
      · intro hcond
        refine ⟨create_sell_signal (frame[i].date) (frame[i].close) sym, ?_, rfl, rfl⟩
        apply mem_find_crossover_signals.mpr
        refine ⟨h51, i - 1, by omega, ?_⟩
        have hidx : i - 1 + 1 = i := by omega
        simp only [hidx]
        rw [hchar, if_neg (by rintro ⟨-, hgt⟩; rcases hcond with ⟨-, hlt⟩; linarith),
          if_pos hcond]
  · intro i hi0 hi hundef sg hmem hdate
    obtain ⟨-, j, hj, hat⟩ := mem_find_crossover_signals.mp hmem
    have hdj : sg.date = frame[j+1].date := crossoverSignalAt_date hat
    have hji : j + 1 = i :=
      frame_date_inj hfr hdates hj hi (by rw [← hdj, hdate])
    have hj' : j = i - 1 := by omega
    subst hj'
    have hidx : i - 1 + 1 = i := by omega
    simp only [hidx] at hat
    rw [crossoverSignalAt_none hundef] at hat
    exact absurd hat (by simp)
  · apply find_crossover_signals_dates_pairwise
    rw [frame_map_date hfr]
    exact hdates

set_option maxRecDepth 20000 in
unseal Rat.mul Rat.add Rat.sub Rat.inv in
theorem find_crossover_signals_spec_witness :
    (find_crossover_signals defaultGen (some crossFrame51) "AAPL").map
        (fun sg => (sg.date, sg.type)) = [((50 : Int), "BUY")] ∧
    List.Pairwise (· < ·)
      ((find_crossover_signals defaultGen (some crossFrame51) "AAPL").map
        Signal.date) :=
  ⟨by decide,
   (find_crossover_signals_spec defaultGen crossBars51 "AAPL" crossFrame51
      (by decide) (by decide)).2.2⟩

/-- Every signal ever created by the detector is a BUY or a SELL
dictionary. -/
theorem find_crossover_signals_types {g : SimpleSignalGenerator}
    {fr : Option (List IndicatorRow)} {sym : String} {sg : Signal}
    (h : sg ∈ find_crossover_signals g fr sym) :
    sg.type = "BUY" ∨ sg.type = "SELL" := by
  match fr with
  | none => exact absurd h (List.not_mem_nil sg)
  | some rows =>
    obtain ⟨-, j, hj, hat⟩ := mem_find_crossover_signals.mp h
    exact crossoverSignalAt_type hat

/-- Reduction of `get_current_recommendation` on a non-empty signal
list. -/
theorem get_current_recommendation_last (signals : List Signal) (last : Signal)
    (h : get_latest_signal signals = some last) (ma : MAStatus) (today : Int) :
    get_current_recommendation signals ma today =
      (if last.type = "BUY" then
        (if today - last.date ≤ 5 then .RECENT_BUY_SIGNAL else .REASSESS_OLD_BUY)
      else if last.type = "SELL" then
        (if today - last.date ≤ 5 then .RECENT_SELL_SIGNAL else .MONITOR_OLD_SELL)
      else .UNCLEAR) := by
  unfold get_current_recommendation
  rw [h]

/-- **C10**: for every non-empty signal list produced by the crossover
detector, the recommendation is one of the four signal-based advisories
(recent/old BUY, recent/old SELL); the UNCLEAR fallback is unreachable
because every signal the detector creates has type BUY or SELL. -/
theorem recommendation_from_detector_signals (g : SimpleSignalGenerator)
    (fr : Option (List IndicatorRow)) (sym : String) (ma : MAStatus)
    (today : Int) (hne : find_crossover_signals g fr sym ≠ []) :
    (∀ sg ∈ find_crossover_signals g fr sym,
      sg.type = "BUY" ∨ sg.type = "SELL") ∧
    (get_current_recommendation (find_crossover_signals g fr sym) ma today
        = .RECENT_BUY_SIGNAL ∨
      get_current_recommendation (find_crossover_signals g fr sym) ma today
        = .REASSESS_OLD_BUY ∨
      get_current_recommendation (find_crossover_signals g fr sym) ma today
        = .RECENT_SELL_SIGNAL ∨
      get_current_recommendation (find_crossover_signals g fr sym) ma today
        = .MONITOR_OLD_SELL) := by
  refine ⟨fun sg h => find_crossover_signals_types h, ?_⟩
  obtain ⟨last, hlast⟩ : ∃ l, (find_crossover_signals g fr sym).getLast? = some l := by
    cases hL : (find_crossover_signals g fr sym).getLast? with
    | none => exact absurd (List.getLast?_eq_none_iff.mp hL) hne
    | some l => exact ⟨l, rfl⟩
  have htype := find_crossover_signals_types (List.mem_of_getLast?_eq_some hlast)
  rw [get_current_recommendation_last _ last hlast ma today]
  rcases htype with ht | ht
  · rw [if_pos ht]
    by_cases hd : today - last.date ≤ 5
    · rw [if_pos hd]
      exact Or.inl rfl
    · rw [if_neg hd]
      exact Or.inr (Or.inl rfl)
  · rw [if_neg (by rw [ht]; decide), if_pos ht]
    by_cases hd : today - last.date ≤ 5
    · rw [if_pos hd]
      exact Or.inr (Or.inr (Or.inl rfl))
    · rw [if_neg hd]
      exact Or.inr (Or.inr (Or.inr rfl))

set_option maxRecDepth 20000 in
unseal Rat.mul Rat.add Rat.sub Rat.inv in
theorem recommendation_from_detector_signals_witness :
    get_current_recommendation
        (find_crossover_signals defaultGen (some crossFrame51) "AAPL")
        ⟨none, none⟩ 55 = .RECENT_BUY_SIGNAL ∨
    get_current_recommendation
        (find_crossover_signals defaultGen (some crossFrame51) "AAPL")
        ⟨none, none⟩ 55 = .REASSESS_OLD_BUY ∨
    get_current_recommendation
        (find_crossover_signals defaultGen (some crossFrame51) "AAPL")
        ⟨none, none⟩ 55 = .RECENT_SELL_SIGNAL ∨
    get_current_recommendation
        (find_crossover_signals defaultGen (some crossFrame51) "AAPL")
        ⟨none, none⟩ 55 = .MONITOR_OLD_SELL :=
  (recommendation_from_detector_signals defaultGen (some crossFrame51) "AAPL"
    ⟨none, none⟩ 55 (by decide)).2

end TradingAdvisor
